import Mathlib

/-!
Verification of the battle-session engine of mindzapp-json-server.

The definitions below are a shallow embedding of `src/services/battleHub.ts`
(question snapshots, answer grading, lobby state machine) and of the
payload helpers in `src/routes/battles.ts`.  JavaScript runtime values that
flow through the untyped `payload` / `data_json` fields are modelled by the
inductive `JSVal`; coercions mirror ECMAScript `ToBoolean` / `ToNumber` on
the value shapes the engine can actually receive (JSON-decodable values).
-/

/-- Model of a JavaScript runtime value as it appears in the untyped
`data_json` and `payload` fields.  `num` carries integer-valued numbers;
`nan` models `NaN`.  (Non-integer numbers are not produced by any code
path compared against the integer option indices used by the grader, and
are conservatively folded into `nan` by `toNumber` below.) -/
inductive JSVal where
  | undefined
  | null
  | bool (b : Bool)
  | num (n : Int)
  | nan
  | str (s : String)
  | arr (xs : List JSVal)
  | obj (fields : List (String × JSVal))

namespace JSVal

/-- Property access `v?.k` / `v.k` as used by the grader: on an object,
look the key up (missing keys give `undefined`); on every other value the
accesses performed by the engine (`payload?.answer`, `o?.correct`, …)
yield `undefined`. -/
def get (v : JSVal) (k : String) : JSVal :=
  match v with
  | .obj fields => (fields.lookup k).getD .undefined
  | _ => .undefined

/-- JavaScript `a ?? b` (nullish coalescing). -/
def nullish (v d : JSVal) : JSVal :=
  match v with
  | .undefined => d
  | .null => d
  | _ => v

/-- ECMAScript `ToBoolean` (the `Boolean(x)` coercion). -/
def toBoolean : JSVal → Bool
  | .undefined => false
  | .null => false
  | .bool b => b
  | .num n => n ≠ 0
  | .nan => false
  | .str s => s ≠ ""
  | .arr _ => true
  | .obj _ => true

/-- Parse a (whitespace-trimmed) decimal integer string the way
`Number(string)` does on the plain-decimal subset: empty string is `0`,
an optional sign followed by digits is that integer, anything else is
`NaN` (`none`).  Hexadecimal, exponent and fractional numeric string
forms are folded into `NaN`; no value graded by the engine compares them
against an index. -/
def decDigitsVal (cs : List Char) : Nat :=
  cs.foldl (fun acc c => acc * 10 + (c.toNat - 48)) 0

def parseDecInt (s : String) : Option Int :=
  let t := ((s.data.dropWhile Char.isWhitespace).reverse.dropWhile Char.isWhitespace).reverse
  match t with
  | [] => some 0
  | '-' :: rest =>
    if rest ≠ [] ∧ rest.all Char.isDigit then some (-(decDigitsVal rest : Int)) else none
  | '+' :: rest =>
    if rest ≠ [] ∧ rest.all Char.isDigit then some ((decDigitsVal rest : Int)) else none
  | cs =>
    if cs.all Char.isDigit then some ((decDigitsVal cs : Int)) else none

/-- ECMAScript `ToNumber` (the `Number(x)` coercion), with `none`
standing for `NaN`.  Arrays coerce through their string form: `[]` is
`0`, a one-element numeric array is its element, other arrays and all
plain objects are `NaN` (a modelling restriction; such values never
compare equal to an option index). -/
def toNumber : JSVal → Option Int
  | .undefined => none
  | .null => some 0
  | .bool b => some (if b then 1 else 0)
  | .num n => some n
  | .nan => none
  | .str s => parseDecInt s
  | .arr [] => some 0
  | .arr [.num n] => some n
  | .arr _ => none
  | .obj _ => none

/-- `Array.isArray(x) ? x : []`. -/
def asArray (v : JSVal) : List JSVal :=
  match v with
  | .arr xs => xs
  | _ => []

end JSVal

/-- The three card types eligible for battles. -/
inductive QType where
  | TRUE_FALSE
  | MCQ_SINGLE
  | MCQ_MULTI
  deriving Repr, DecidableEq

/-- `QuestionSnapshot` from `battleHub.ts`: the frozen copy of a card,
including its answer-key payload `data_json`. -/
structure QuestionSnapshot where
  id : String
  type : QType
  prompt_md : String
  data_json : JSVal
  time_limit_sec : Option Nat := none
  hint : Option String := none

/-- JavaScript strict equality `x === true`: holds exactly for the
boolean value `true` (no coercion). -/
def isStrictTrue (v : JSVal) : Bool :=
  match v with
  | .bool true => true
  | _ => false

/-- `options.findIndex(o => o?.correct === true)`: position of the first
option whose `correct` property is strictly the boolean `true`; `-1` when
there is none. -/
def findIndexCorrect (options : List JSVal) : Int :=
  match options.findIdx? (fun o => isStrictTrue (o.get "correct")) with
  | some i => (i : Int)
  | none => -1

/-- `options.map((o, i) => (o?.correct ? i : -1)).filter(i => i >= 0)`:
the positions of the options whose `correct` property is truthy
(note: truthiness here, unlike the strict `=== true` of the
single-choice branch). -/
def flaggedPositions (options : List JSVal) : List Int :=
  ((options.enum.map fun p => if (p.2.get "correct").toBoolean then (p.1 : Int) else -1).filter
    fun i => 0 ≤ i)

/-- `gradeAnswer` from `battleHub.ts` (lines 74–100), the server-side
grader.  `payload.indices` entries pass through `Number(...)`; the
deduplication of the resulting JS `Set` uses SameValueZero, under which
all `NaN`s collapse — matched here by `List.dedup` on `Option Int`. -/
def gradeAnswer (snapshot : QuestionSnapshot) (payload : JSVal) : Bool :=
  let data := snapshot.data_json.nullish (JSVal.obj [])
  match snapshot.type with
  | .TRUE_FALSE =>
    (payload.get "answer").toBoolean == (data.get "correct").toBoolean
  | .MCQ_SINGLE =>
    let options := (data.get "options").asArray
    let correctIndex := findIndexCorrect options
    (payload.get "index").toNumber == some correctIndex
  | .MCQ_MULTI =>
    let options := (data.get "options").asArray
    let correct := (flaggedPositions options).map Option.some
    let indices :=
      match payload.get "indices" with
      | .arr xs => xs.map JSVal.toNumber
      | _ => []
    let ans := indices.dedup
    if ans.length ≠ correct.length then false
    else ans.all fun i => correct.contains i

/-! ## Lobby state machine (`BattleHub`, `battleHub.ts` lines 102–314) -/

inductive AccessMode where
  | PUBLIC
  | PRIVATE
  deriving Repr, DecidableEq

/-- One recorded answer: `{ correct, ms }`. -/
structure AnswerRec where
  correct : Bool
  ms : Nat
  deriving Repr, DecidableEq

/-- `PlayerState` from `battleHub.ts`: per-player score and the
write-once answers record, keyed by the string `` `${q.id}:${qIndex}` ``. -/
structure PlayerState where
  userId : String
  username : String
  score : Nat
  answers : List (String × AnswerRec)
  deriving Repr, DecidableEq

/-- `Lobby` from `battleHub.ts`.  `players` is the `userId → PlayerState`
record, modelled as an association list; `order` is the join order. -/
structure Lobby where
  id : String
  hostId : String
  deckId : String
  deckTitle : String
  access : AccessMode
  pin : Option String := none
  createdAt : String
  startedAt : Option String := none
  finishedAt : Option String := none
  players : List (String × PlayerState)
  order : List String
  snapshots : List QuestionSnapshot
  qIndex : Int
  qShownAt : Option Nat := none

/-- The error strings thrown by `BattleHub` operations. -/
inductive BattleError where
  | LOBBY_NOT_FOUND
  | LOBBY_FINISHED
  | ALREADY_STARTED
  | NOT_STARTED
  | NO_ACTIVE_QUESTION
  | PLAYER_NOT_IN_LOBBY
  deriving Repr, DecidableEq

/-- The fresh lobby literal built by `createLobby` (lines 139–151):
state `CREATED`, empty roster, `qIndex = -1`.  The randomly sampled
snapshots and optional PIN are parameters here; the sampling itself
(`pick`, `Math.random`) is outside the deterministic model. -/
def initialLobby (id hostId deckId deckTitle : String) (access : AccessMode)
    (pin : Option String) (createdAt : String) (shots : List QuestionSnapshot) : Lobby :=
  { id := id, hostId := hostId, deckId := deckId, deckTitle := deckTitle,
    access := access, pin := pin, createdAt := createdAt,
    players := [], order := [], snapshots := shots, qIndex := -1 }

/-- `join` (lines 160–177), restricted to one already-resolved lobby
(the registry/PIN lookup is outside the per-lobby model): refuses
finished lobbies, otherwise inserts a zero-score player if new. -/
def join (userId username : String) (l : Lobby) : Except BattleError Lobby :=
  if l.finishedAt.isSome then .error .LOBBY_FINISHED
  else if (l.players.lookup userId).isSome then .ok l
  else .ok { l with
    players := l.players ++ [(userId, ⟨userId, username, 0, []⟩)],
    order := l.order ++ [userId] }

/-- `start` (lines 180–187): refuse if already started, else set
`startedAt`, move to question 0 and record the reveal time. -/
def start (nowIso : String) (nowMs : Nat) (l : Lobby) : Except BattleError Lobby :=
  if l.startedAt.isSome then .error .ALREADY_STARTED
  else .ok { l with startedAt := some nowIso, qIndex := 0, qShownAt := some nowMs }

/-- Ranking entry broadcast at completion: `{ userId, username, score }`. -/
structure RankEntry where
  userId : String
  username : String
  score : Nat
  deriving Repr, DecidableEq

/-- The un-sorted scoreboard list `lobby.order.map(uid => ...)`:
entries in join order.  (`players[uid]` always exists for ids in
`order`; a hypothetical dangling id is dropped to keep the map total.) -/
def scoreboard (l : Lobby) : List RankEntry :=
  l.order.filterMap fun uid => (l.players.lookup uid).map fun p => ⟨uid, p.username, p.score⟩

/-- The completion ranking (lines 243–245): the join-order scoreboard
sorted by descending score with JavaScript's `Array.prototype.sort`,
which ECMAScript requires to be stable — modelled by the stable
`List.mergeSort` under `a.score ≥ b.score`. -/
def rankingOf (l : Lobby) : List RankEntry :=
  (scoreboard l).mergeSort fun a b => decide (b.score ≤ a.score)

/-- The fixed payout schedule `[30, 20, 10]` for the top three. -/
def prizes : List Nat := [30, 20, 10]

/-- `ranking.slice(0, 3)` zipped with the prize schedule (line 248). -/
def awardsOf (l : Lobby) : List (RankEntry × Nat) :=
  ((rankingOf l).take 3).enum.map fun p => (p.2, prizes.getD p.1 0)

/-- `finish` (lines 237–265), state part plus the broadcast ranking:
idempotent — on an already-finished lobby nothing changes and nothing is
broadcast; otherwise set `finishedAt` and emit the ranking.  The ledger
postings are writes to the external store and carry no lobby state. -/
def finish (nowIso : String) (l : Lobby) : Lobby × Option (List RankEntry) :=
  if l.finishedAt.isSome then (l, none)
  else ({ l with finishedAt := some nowIso }, some (rankingOf l))

/-- `next` (lines 190–200): refuse if not started; increment `qIndex`;
past the end, trigger `finish` instead of revealing a question. -/
def next (nowIso : String) (nowMs : Nat) (l : Lobby) : Except BattleError Lobby :=
  if l.startedAt.isNone then .error .NOT_STARTED
  else
    let l1 := { l with qIndex := l.qIndex + 1 }
    if (l1.snapshots.length : Int) ≤ l1.qIndex then .ok (finish nowIso l1).1
    else .ok { l1 with qShownAt := some nowMs }

/-- `speedBonus = Math.max(0, 5000 - elapsed)` (line 214); `Nat`
subtraction supplies the clamp at 0. -/
def speedBonus (elapsed : Nat) : Nat := 5000 - elapsed

/-- Round-half-even of the fraction `a / b` (`b > 0`) to an integer:
the rounding IEEE-754 round-to-nearest applies when an exact quotient
lands between two consecutive points of the target grid. -/
def rndNEdiv (a b : Nat) : Nat :=
  let q := a / b
  let r := a % b
  if 2 * r < b then q
  else if b < 2 * r then q + 1
  else if q % 2 = 0 then q else q + 1

/-- Least `k` with `5000 ≤ sb·2^k` (for `1 ≤ sb ≤ 5000` a fuel of 14
doublings always suffices): then `sb/5000 ∈ [2^(-k), 2^(-k+1))`, so the
binary64 double nearest to `sb/5000` lies on the grid of spacing
`2^(-(52+k))`. -/
def scaleKAux : Nat → Nat → Nat
  | 0, _ => 0
  | fuel + 1, x => if 5000 ≤ x then 0 else scaleKAux fuel (2 * x) + 1

def scaleK (sb : Nat) : Nat := scaleKAux 14 sb

/-- Bit length of a natural number, by fuel-bounded structural recursion
so that it reduces in the kernel; 64 bits cover every value this file
feeds it. -/
def bitLenAux : Nat → Nat → Nat
  | 0, _ => 0
  | fuel + 1, n => if n = 0 then 0 else bitLenAux fuel (n / 2) + 1

def bitLen (n : Nat) : Nat := bitLenAux 64 n

/-- `Math.round(50 * (sb / 5000))` exactly as the engine's IEEE-754
binary64 arithmetic evaluates it (line 215), in integer form.
`sb / 5000` is rounded — nearest, ties to even — to the double
`m1·2^(-(52+k))` with `2^52 ≤ m1 ≤ 2^53`; the product with 50 is the
exact dyadic `M·2^(-(52+k))` but must be rounded back to 53 significant
bits by dropping its `s = bitLen M - 53` low bits (nearest, ties to
even) when `M` is longer; `Math.round` then takes the exact value
`P·2^(-(52+k-s))` of that double to the nearest integer, half-way cases
toward `+∞` (computed as `⌊x + 1/2⌋` on the exact dyadic value).  Every
step is exact integer arithmetic on dyadic numerators.  Unlike the naive
`(50·sb + 2500) / 5000`, this reproduces the double rounding of the
program: at `sb = 1450` and `sb = 2850` the float product falls just
below the half-integer, giving 14 and 28 rather than 15 and 29. -/
def jsRoundBonus (sb : Nat) : Nat :=
  if sb = 0 then 0
  else
    let k := scaleK sb
    let t := 52 + k
    let m1 := rndNEdiv (sb * 2 ^ t) 5000
    let M := 50 * m1
    if bitLen M ≤ 53 then (2 * M + 2 ^ t) / 2 ^ (t + 1)
    else
      let s := bitLen M - 53
      let P := rndNEdiv M (2 ^ s)
      (2 * P + 2 ^ (t - s)) / 2 ^ (t - s + 1)

/-- `Math.round(50 * (speedBonus / 5000))` (line 215), via the faithful
binary64 model `jsRoundBonus`. -/
def bonusPoints (elapsed : Nat) : Nat := jsRoundBonus (speedBonus elapsed)

/-- Iterative checker: starting at `sb`, the binary64 bonus never
decreases over the next `fuel` unit steps.  Written with the recursive
call in tail position of the `if` so that evaluating it keeps a flat
reduction chain. -/
def bonusMonoFrom : Nat → Nat → Bool
  | 0, _ => true
  | fuel + 1, sb =>
    if jsRoundBonus sb ≤ jsRoundBonus (sb + 1) then bonusMonoFrom fuel (sb + 1) else false

/-- The score increment for a correct answer: `100 + bonus` (line 215). -/
def scoreDelta (elapsed : Nat) : Nat := 100 + bonusPoints elapsed

/-- The `{ correct, delta, elapsed }` value returned by `submitAnswer`. -/
structure SubmitResult where
  correct : Bool
  delta : Nat
  elapsed : Nat
  deriving Repr, DecidableEq

/-- `submitAnswer` (lines 203–234).  Mirrors the source order: bounds
check on `qIndex`, elapsed time (clamped at 0 by `Nat` subtraction, with
`qShownAt ?? now` when the reveal time is missing), grading, scoring,
player lookup, then the write-once guard `if (!player.answers[key])`
(recorded answers are objects, hence truthy exactly when present). -/
def submitAnswer (nowMs : Nat) (userId : String) (payload : JSVal) (l : Lobby) :
    Except BattleError (Lobby × SubmitResult) :=
  if l.qIndex < 0 ∨ (l.snapshots.length : Int) ≤ l.qIndex then .error .NO_ACTIVE_QUESTION
  else
    match l.snapshots.get? l.qIndex.toNat with
    | none => .error .NO_ACTIVE_QUESTION
    | some q =>
      let elapsed := nowMs - (l.qShownAt.getD nowMs)
      let correct := gradeAnswer q payload
      let delta := if correct then scoreDelta elapsed else 0
      match l.players.lookup userId with
      | none => .error .PLAYER_NOT_IN_LOBBY
      | some player =>
        let key := q.id ++ ":" ++ toString l.qIndex
        if (player.answers.lookup key).isSome then
          .ok (l, ⟨correct, delta, elapsed⟩)
        else
          let player1 : PlayerState :=
            { player with
              answers := player.answers ++ [(key, ⟨correct, elapsed⟩)],
              score := player.score + delta }
          .ok ({ l with
                 players := l.players.map fun p => if p.1 = userId then (userId, player1) else p },
               ⟨correct, delta, elapsed⟩)

/-- The question object broadcast to clients, as built both by
`BattleHub.emitQuestion` (`battleHub.ts` lines 296–313) and by
`questionPayload` in `battles.ts` (lines 29–46): the two build the same
`question` record field by field. -/
structure QuestionBroadcast where
  lobbyId : String
  qIndex : Int
  total : Nat
  shownAt : Option Nat
  question_id : String
  question_type : QType
  prompt_md : String
  data_json : JSVal
  time_limit_sec : Option Nat
  hint : Option String

/-- `questionPayload` (`battles.ts` lines 29–46): `null` out of range,
otherwise the broadcast record for the current question — including its
`data_json` field, copied verbatim from the snapshot. -/
def questionPayload (l : Lobby) : Option QuestionBroadcast :=
  if l.qIndex < 0 ∨ (l.snapshots.length : Int) ≤ l.qIndex then none
  else
    (l.snapshots.get? l.qIndex.toNat).map fun q =>
      ⟨l.id, l.qIndex, l.snapshots.length, l.qShownAt,
       q.id, q.type, q.prompt_md, q.data_json, q.time_limit_sec, q.hint⟩

/-! ## Concrete session states used to exercise the operations -/

/-- A frozen TRUE_FALSE snapshot with answer key `{correct: k}`. -/
def tfSnap (k : Bool) : QuestionSnapshot :=
  ⟨"q1", .TRUE_FALSE, "2 + 2 = 4?", .obj [("correct", .bool k)], some 20, none⟩

/-- A frozen MCQ_SINGLE snapshot over the given option list. -/
def mcqSnap (opts : List JSVal) : QuestionSnapshot :=
  ⟨"q2", .MCQ_SINGLE, "Pick one", .obj [("options", .arr opts)], none, none⟩

/-- A started public lobby on question 0 (a TRUE_FALSE whose key is
`true`), revealed at t = 1000 ms, with the host as only player. -/
def lobbyA : Lobby :=
  { id := "L1", hostId := "h", deckId := "d", deckTitle := "T", access := .PUBLIC,
    createdAt := "t0", startedAt := some "t1",
    players := [("h", ⟨"h", "host", 0, []⟩)], order := ["h"],
    snapshots := [tfSnap true], qIndex := 0, qShownAt := some 1000 }

/-- `lobbyA` after the host's successful first submission at t = 1000
(elapsed 0, correct, delta 150). -/
def lobbyASub : Lobby :=
  { lobbyA with players := [("h", ⟨"h", "host", 150, [("q1:0", ⟨true, 0⟩)]⟩)] }

/-- A lobby finished early by the host (`POST /battles/finish`) while
question 0 was still active: `finishedAt` set, `qIndex` still `0`. -/
def lobbyFin : Lobby :=
  { lobbyA with
    finishedAt := some "t2"
    players := [("u", ⟨"u", "alice", 0, []⟩)]
    order := ["u"] }

/-- A lobby that completed by advancing past its single question:
`qIndex = 1 = len(snapshots)`, `finishedAt` set. -/
def lobbyDone : Lobby :=
  { lobbyFin with qIndex := 1 }

/-- A started lobby where player `u` has already answered question 0
incorrectly (recorded `{correct: false, ms: 100}`, score 0). -/
def lobbyAns : Lobby :=
  { lobbyA with
    players := [("u", ⟨"u", "alice", 0, [("q1:0", ⟨false, 100⟩)]⟩)]
    order := ["u"] }

/-- A lobby with two players tied at 100 points (joined in order `a`,
`b`) and a third at 50, about to finish. -/
def lobbyTie : Lobby :=
  { lobbyA with
    players := [("a", ⟨"a", "A", 100, []⟩), ("b", ⟨"b", "B", 100, []⟩),
                ("c", ⟨"c", "C", 50, []⟩)]
    order := ["a", "b", "c"]
    qIndex := 1 }

/-- Score of a player, read off the roster. -/
def scoreOf (l : Lobby) (uid : String) : Option Nat :=
  (l.players.lookup uid).map PlayerState.score

/-- How the grader treats an entirely missing payload, per question
type: on TRUE_FALSE it is correct exactly when the key's `correct` field
is falsy; on MCQ_SINGLE it is always incorrect (`NaN` matches no index);
on MCQ_MULTI it is correct exactly when no option is flagged truthy. -/
def gradeOfMissingPayload (s : QuestionSnapshot) : Bool :=
  let data := s.data_json.nullish (JSVal.obj [])
  match s.type with
  | .TRUE_FALSE => !(data.get "correct").toBoolean
  | .MCQ_SINGLE => false
  | .MCQ_MULTI => flaggedPositions (data.get "options").asArray == []

/-! ## Claims -/

/-- C1: the claim says the question broadcast payload never contains the
answer key.  In the code both `emitQuestion` and `questionPayload` copy
the snapshot's `data_json` — which is exactly the answer-key payload the
grader reads — into the client-visible `question` object, contradicting
the code's own comment ("we never send correctness info").  At the
concrete started lobby `lobbyA`, the broadcast for question 0 carries
`data_json = {correct: true}`, whose `correct` field is the answer. -/
theorem broadcast_payload_contains_answer_key :
    (questionPayload lobbyA).map QuestionBroadcast.data_json
        = some ((tfSnap true).data_json)
    ∧ ((questionPayload lobbyA).map fun b => b.data_json.get "correct")
        = some (JSVal.bool true) :=
  ⟨rfl, rfl⟩

/-- C2: the claim says a session with `finishedAt` set accepts no further
mutation, and in particular `submitAnswer` fails on it.  In the code
`submitAnswer` only checks the `qIndex` range, never `finishedAt`, so on
`lobbyFin` — finished early by the host with question 0 still in range —
a submission succeeds and raises the player's score from 0 to 150. -/
theorem submit_after_finish_mutates_score :
    lobbyFin.finishedAt = some "t2"
    ∧ scoreOf lobbyFin "u" = some 0
    ∧ ((submitAnswer 1000 "u" (JSVal.obj [("answer", JSVal.bool true)]) lobbyFin).toOption.map
          fun r => (scoreOf r.1 "u", r.2))
        = some (some 150, ⟨true, 150, 0⟩) :=
  ⟨rfl, rfl, rfl⟩

/-- C6: the claim says `currentIndex` never exceeds `len(questions)`.
`next` never checks `finishedAt`, so calling it on the completed lobby
`lobbyDone` (one question, `qIndex = 1`) increments `qIndex` to 2, past
the length. -/
theorem next_pushes_index_past_length :
    lobbyDone.snapshots.length = 1
    ∧ lobbyDone.qIndex = 1
    ∧ ((next "t3" 2000 lobbyDone).toOption.map Lobby.qIndex) = some 2 :=
  ⟨rfl, rfl, rfl⟩

/-- C3 counterexample: the claim says a non-boolean submitted value is
never graded correct on a TRUE_FALSE question.  The code coerces both
sides with `Boolean(...)`, so the number `1` — not a boolean — is graded
correct against the key `{correct: true}`. -/
theorem tf_nonboolean_graded_correct :
    gradeAnswer (tfSnap true) (JSVal.obj [("answer", JSVal.num 1)]) = true
    ∧ JSVal.num 1 ≠ JSVal.bool true
    ∧ JSVal.num 1 ≠ JSVal.bool false :=
  ⟨rfl, nofun, nofun⟩

/-- C3 amended: TRUE_FALSE grading compares the `Boolean(...)` coercions
of the submitted `answer` field and of the key's `correct` field, so a
payload is graded correct exactly when its `answer` field's truthiness
equals the key's truthiness. -/
theorem tf_grading_is_truthiness_equality (k : Bool) (p : JSVal) :
    gradeAnswer (tfSnap k) p = ((p.get "answer").toBoolean == k) :=
  rfl

/-- C7 counterexample: the claim says malformed or missing payloads are
always graded incorrect.  A wholly missing payload (`undefined`) is
graded *correct* on a TRUE_FALSE question whose key is `{correct: false}`,
because both sides coerce to `false`. -/
theorem missing_payload_graded_correct :
    gradeAnswer (tfSnap false) JSVal.undefined = true :=
  rfl

/-- C7 amended: grading is a total pure function of the pair (snapshot,
payload) — totality and determinism are inherent in the embedding — but
a missing payload is *not* uniformly incorrect: it grades by the same
coercion rules as any value, captured by `gradeOfMissingPayload`. -/
theorem grade_missing_payload_characterization (s : QuestionSnapshot) :
    gradeAnswer s JSVal.undefined = gradeOfMissingPayload s := by
  cases hs : s.type with
  | TRUE_FALSE =>
    simp only [gradeAnswer, gradeOfMissingPayload, hs]
    generalize ((s.data_json.nullish (JSVal.obj [])).get "correct").toBoolean = b
    cases b <;> rfl
  | MCQ_SINGLE =>
    simp only [gradeAnswer, gradeOfMissingPayload, hs]
    rfl
  | MCQ_MULTI =>
    simp only [gradeAnswer, gradeOfMissingPayload, hs]
    generalize flaggedPositions ((s.data_json.nullish (JSVal.obj [])).get "options").asArray = fl
    cases fl <;> rfl

/-- C4 counterexample: the claim says a repeated `submitAnswer` returns
the previously *recorded* result.  On `lobbyAns` the player's recorded
answer for question 0 is `{correct: false, ms: 100}`, yet resubmitting a
(now correct) payload returns a fresh grading `{correct: true,
delta: 140, elapsed: 1000}` — only the state write is skipped. -/
theorem resubmission_returns_fresh_grading :
    ((lobbyAns.players.lookup "u").map fun p => p.answers.lookup "q1:0")
        = some (some ⟨false, 100⟩)
    ∧ submitAnswer 2000 "u" (JSVal.obj [("answer", JSVal.bool true)]) lobbyAns
        = .ok (lobbyAns, ⟨true, 140, 1000⟩) :=
  ⟨rfl, rfl⟩

/-- C4 amended: when the participant already has a recorded answer under
the current question's key, `submitAnswer` leaves the lobby completely
unchanged but returns a freshly computed grading of the new payload and
the newly measured elapsed time, not the stored result. -/
theorem resubmission_is_state_noop_with_fresh_result
    (l : Lobby) (nowMs : Nat) (uid : String) (payload : JSVal)
    (q : QuestionSnapshot) (player : PlayerState)
    (hrange : ¬(l.qIndex < 0 ∨ (l.snapshots.length : Int) ≤ l.qIndex))
    (hq : l.snapshots.get? l.qIndex.toNat = some q)
    (hp : l.players.lookup uid = some player)
    (hkey : (player.answers.lookup (q.id ++ ":" ++ toString l.qIndex)).isSome) :
    submitAnswer nowMs uid payload l
      = .ok (l, ⟨gradeAnswer q payload,
                 if gradeAnswer q payload then scoreDelta (nowMs - l.qShownAt.getD nowMs) else 0,
                 nowMs - l.qShownAt.getD nowMs⟩) := by
  unfold submitAnswer
  rw [if_neg hrange, hq, hp]
  simp only [hkey, if_true]

/-- Witness for the amended C4 theorem at `lobbyAns`. -/
theorem resubmission_is_state_noop_with_fresh_result_witness :
    submitAnswer 2000 "u" (JSVal.obj [("answer", JSVal.bool false)]) lobbyAns
      = .ok (lobbyAns, ⟨false, 0, 1000⟩) :=
  resubmission_is_state_noop_with_fresh_result lobbyAns 2000 "u"
    (JSVal.obj [("answer", JSVal.bool false)]) (tfSnap true)
    ⟨"u", "alice", 0, [("q1:0", ⟨false, 100⟩)]⟩
    (by decide) rfl rfl rfl

/-- What a `true` run of the checker certifies. -/
theorem bonusMonoFrom_sound :
    ∀ fuel sb, bonusMonoFrom fuel sb = true →
      ∀ i, i < fuel → jsRoundBonus (sb + i) ≤ jsRoundBonus (sb + i + 1) := by
  intro fuel
  induction fuel with
  | zero => intro sb h i hi; exact absurd hi (Nat.not_lt_zero i)
  | succ f ih =>
    intro sb h i hi
    unfold bonusMonoFrom at h
    split at h
    · rename_i hc
      cases i with
      | zero => simpa using hc
      | succ j =>
        have hj := ih (sb + 1) h j (Nat.lt_of_succ_lt_succ hi)
        have he : sb + 1 + j = sb + (j + 1) := by omega
        rw [he] at hj
        exact hj
    · exact absurd h (by simp)

set_option maxRecDepth 100000 in
/-- Segment 0 of the exhaustive monotonicity run: steps `0..499`. -/
theorem bonusMonoSeg0 : bonusMonoFrom 500 0 = true := by decide

set_option maxRecDepth 100000 in
/-- Segment 1 of the exhaustive monotonicity run: steps `500..999`. -/
theorem bonusMonoSeg1 : bonusMonoFrom 500 500 = true := by decide

set_option maxRecDepth 100000 in
/-- Segment 2 of the exhaustive monotonicity run: steps `1000..1499`. -/
theorem bonusMonoSeg2 : bonusMonoFrom 500 1000 = true := by decide

set_option maxRecDepth 100000 in
/-- Segment 3 of the exhaustive monotonicity run: steps `1500..1999`. -/
theorem bonusMonoSeg3 : bonusMonoFrom 500 1500 = true := by decide

set_option maxRecDepth 100000 in
/-- Segment 4 of the exhaustive monotonicity run: steps `2000..2499`. -/
theorem bonusMonoSeg4 : bonusMonoFrom 500 2000 = true := by decide

set_option maxRecDepth 100000 in
/-- Segment 5 of the exhaustive monotonicity run: steps `2500..2999`. -/
theorem bonusMonoSeg5 : bonusMonoFrom 500 2500 = true := by decide

set_option maxRecDepth 100000 in
/-- Segment 6 of the exhaustive monotonicity run: steps `3000..3499`. -/
theorem bonusMonoSeg6 : bonusMonoFrom 500 3000 = true := by decide

set_option maxRecDepth 100000 in
/-- Segment 7 of the exhaustive monotonicity run: steps `3500..3999`. -/
theorem bonusMonoSeg7 : bonusMonoFrom 500 3500 = true := by decide

set_option maxRecDepth 100000 in
/-- Segment 8 of the exhaustive monotonicity run: steps `4000..4499`. -/
theorem bonusMonoSeg8 : bonusMonoFrom 500 4000 = true := by decide

set_option maxRecDepth 100000 in
/-- Segment 9 of the exhaustive monotonicity run: steps `4500..4999`. -/
theorem bonusMonoSeg9 : bonusMonoFrom 500 4500 = true := by decide

/-- Two consecutive successful runs of the checker compose. -/
theorem bonusMonoFrom_append (a b sb : Nat)
    (h1 : bonusMonoFrom a sb = true) (h2 : bonusMonoFrom b (sb + a) = true) :
    bonusMonoFrom (a + b) sb = true := by
  induction a generalizing sb with
  | zero => simpa using h2
  | succ n ih =>
    rw [Nat.succ_add n b]
    unfold bonusMonoFrom at h1 ⊢
    split at h1
    · rename_i hc
      rw [if_pos hc]
      have h2x : bonusMonoFrom b (sb + 1 + n) = true := by
        have he : sb + 1 + n = sb + (n + 1) := by omega
        rwa [he]
      exact ih (sb + 1) h1 h2x
    · exact absurd h1 (by simp)

/-- The full run over `0..5000`, stitched from the ten segments. -/
theorem bonusMonoFromFull : bonusMonoFrom 5000 0 = true := by
  have h1 := bonusMonoFrom_append 500 500 0 bonusMonoSeg0 (by simpa using bonusMonoSeg1)
  have h2 := bonusMonoFrom_append 1000 500 0 h1 (by simpa using bonusMonoSeg2)
  have h3 := bonusMonoFrom_append 1500 500 0 h2 (by simpa using bonusMonoSeg3)
  have h4 := bonusMonoFrom_append 2000 500 0 h3 (by simpa using bonusMonoSeg4)
  have h5 := bonusMonoFrom_append 2500 500 0 h4 (by simpa using bonusMonoSeg5)
  have h6 := bonusMonoFrom_append 3000 500 0 h5 (by simpa using bonusMonoSeg6)
  have h7 := bonusMonoFrom_append 3500 500 0 h6 (by simpa using bonusMonoSeg7)
  have h8 := bonusMonoFrom_append 4000 500 0 h7 (by simpa using bonusMonoSeg8)
  have h9 := bonusMonoFrom_append 4500 500 0 h8 (by simpa using bonusMonoSeg9)
  exact h9

/-- Exhaustive check over the whole reachable domain `0..5000` of
`speedBonus`: the binary64 bonus never decreases when the speed bonus
grows by 1. -/
theorem jsRoundBonus_adjacent :
    ∀ sb : Nat, sb < 5000 → jsRoundBonus sb ≤ jsRoundBonus (sb + 1) := by
  intro sb h
  have := bonusMonoFrom_sound 5000 0 bonusMonoFromFull sb h
  rwa [Nat.zero_add] at this

/-- Monotonicity of the binary64 bonus on `0..5000`, chained from the
adjacent steps. -/
theorem jsRoundBonus_mono (a b : Nat) (hab : a ≤ b) (hb : b ≤ 5000) :
    jsRoundBonus a ≤ jsRoundBonus b := by
  induction b with
  | zero => cases Nat.le_zero.mp hab; exact Nat.le_refl _
  | succ n ih =>
    rcases Nat.lt_or_ge a (n + 1) with h | h
    · exact Nat.le_trans (ih (Nat.lt_succ_iff.mp h) (Nat.le_of_succ_le hb))
        (jsRoundBonus_adjacent n (Nat.lt_of_succ_le hb))
    · have he : a = n + 1 := Nat.le_antisymm hab h
      rw [he]

/-- C9: the score increment of a correct submission, as a function of
elapsed milliseconds — `submitAnswer` adds `scoreDelta elapsed` exactly
when the grading is correct — is antitone in elapsed time, always at
least the base 100, and its speed-bonus part is 0 from the 5000 ms
threshold on. -/
theorem score_delta_monotone_base_threshold :
    (∀ e1 e2 : Nat, e1 ≤ e2 → scoreDelta e2 ≤ scoreDelta e1)
    ∧ (∀ e : Nat, 100 ≤ scoreDelta e)
    ∧ (∀ e : Nat, 5000 ≤ e → bonusPoints e = 0) := by
  refine ⟨fun e1 e2 h => ?_, fun e => Nat.le_add_right 100 _, fun e h => ?_⟩
  · have hsb : speedBonus e2 ≤ speedBonus e1 := Nat.sub_le_sub_left h 5000
    exact Nat.add_le_add_left (jsRoundBonus_mono _ _ hsb (Nat.sub_le 5000 e1)) 100
  · unfold bonusPoints speedBonus
    rw [Nat.sub_eq_zero_of_le h]
    rfl

/-- Witness for C9 at elapsed times 0, 5000, 777 and 9999. -/
theorem score_delta_monotone_base_threshold_witness :
    scoreDelta 5000 ≤ scoreDelta 0 ∧ 100 ≤ scoreDelta 777 ∧ bonusPoints 9999 = 0 :=
  ⟨score_delta_monotone_base_threshold.1 0 5000 (by decide),
   score_delta_monotone_base_threshold.2.1 777,
   score_delta_monotone_base_threshold.2.2 9999 (by decide)⟩

/-- C10: on an MCQ_SINGLE snapshot, `findIndex` yields `-1` when no
option's `correct` is strictly `true`, so exactly the payloads whose
`index` field numerically coerces to `-1` are graded correct; and when
some options are flagged (in particular more than one), exactly the
position of the first flagged option is accepted. -/
theorem mcq_single_zero_or_many_flags :
    (∀ (opts : List JSVal) (p : JSVal),
        (∀ o ∈ opts, isStrictTrue (o.get "correct") = false) →
        (gradeAnswer (mcqSnap opts) p = true ↔ (p.get "index").toNumber = some (-1)))
    ∧ (∀ (opts : List JSVal) (p : JSVal) (k : Nat),
        opts.findIdx? (fun o => isStrictTrue (o.get "correct")) = some k →
        (gradeAnswer (mcqSnap opts) p = true ↔ (p.get "index").toNumber = some (k : Int))) := by
  constructor
  · intro opts p h
    have hf : opts.findIdx? (fun o => isStrictTrue (o.get "correct")) = none :=
      List.findIdx?_eq_none_iff.mpr h
    have hidx : findIndexCorrect opts = -1 := by unfold findIndexCorrect; rw [hf]
    show ((p.get "index").toNumber == some (findIndexCorrect opts)) = true ↔ _
    rw [hidx, beq_iff_eq]
  · intro opts p k hk
    have hidx : findIndexCorrect opts = (k : Int) := by unfold findIndexCorrect; rw [hk]
    show ((p.get "index").toNumber == some (findIndexCorrect opts)) = true ↔ _
    rw [hidx, beq_iff_eq]

/-- Witness for C10: with a single unflagged option, both `{index: -1}`
and `{index: "-1"}` are graded correct; with two flagged options, index
0 (the first) is graded correct. -/
theorem mcq_single_zero_or_many_flags_witness :
    gradeAnswer (mcqSnap [JSVal.obj [("correct", JSVal.bool false)]])
        (JSVal.obj [("index", JSVal.str "-1")]) = true
    ∧ gradeAnswer (mcqSnap [JSVal.obj [("correct", JSVal.bool false)]])
        (JSVal.obj [("index", JSVal.num (-1))]) = true
    ∧ gradeAnswer (mcqSnap [JSVal.obj [("correct", JSVal.bool true)],
          JSVal.obj [("correct", JSVal.bool true)]])
        (JSVal.obj [("index", JSVal.num 0)]) = true :=
  ⟨(mcq_single_zero_or_many_flags.1 _ _ (by decide)).mpr (by decide),
   (mcq_single_zero_or_many_flags.1 _ _ (by decide)).mpr (by decide),
   (mcq_single_zero_or_many_flags.2 _ _ 0 (by decide)).mpr (by decide)⟩

/-- Replacing `uid`'s entry in the roster (the way `submitAnswer` writes
the updated player back) makes `uid` look up to the new state. -/
theorem lookup_map_update (uid : String) (pl1 : PlayerState) :
    ∀ ps : List (String × PlayerState), (ps.lookup uid).isSome →
      (ps.map fun p => if p.1 = uid then (uid, pl1) else p).lookup uid = some pl1 := by
  intro ps
  induction ps with
  | nil => intro h; simp at h
  | cons hd t ih =>
    rcases hd with ⟨k, v⟩
    intro h
    by_cases he : k = uid
    · subst he
      simp
    · have hb : (uid == k) = false := beq_eq_false_iff_ne.mpr (fun e => he e.symm)
      rw [List.lookup_cons, hb] at h
      simp only [List.map_cons, if_neg he]
      rw [List.lookup_cons, hb]
      exact ih h

/-- After appending a record under `key`, looking `key` up succeeds. -/
theorem lookup_append_key_isSome (key : String) (rec : AnswerRec)
    (xs : List (String × AnswerRec)) : ((xs ++ [(key, rec)]).lookup key).isSome := by
  rw [List.lookup_append]
  cases hx : xs.lookup key with
  | none => simp [List.lookup_cons]
  | some v => simp

/-- C5: whatever a first successful `submitAnswer` produced, any later
submission by the same participant while the lobby sits at the same
question index leaves the lobby — every score and every recorded
answer — exactly unchanged: the write-once guard short-circuits. -/
theorem second_submission_leaves_state_unchanged
    (l l1 : Lobby) (r1 : SubmitResult) (now1 now2 : Nat) (uid : String) (p1 p2 : JSVal)
    (h1 : submitAnswer now1 uid p1 l = .ok (l1, r1)) :
    ∃ r2, submitAnswer now2 uid p2 l1 = .ok (l1, r2) := by
  unfold submitAnswer at h1
  by_cases hrange : l.qIndex < 0 ∨ (l.snapshots.length : Int) ≤ l.qIndex
  · rw [if_pos hrange] at h1; exact absurd h1 (by simp)
  rw [if_neg hrange] at h1
  cases hq : l.snapshots.get? l.qIndex.toNat with
  | none => rw [hq] at h1; exact absurd h1 (by simp)
  | some q =>
    rw [hq] at h1
    cases hp : l.players.lookup uid with
    | none => rw [hp] at h1; exact absurd h1 (by simp)
    | some player =>
      rw [hp] at h1
      by_cases hkey : (player.answers.lookup (q.id ++ ":" ++ toString l.qIndex)).isSome
      · simp only [hkey, if_true] at h1
        rw [Except.ok.injEq, Prod.mk.injEq] at h1
        obtain ⟨hl, -⟩ := h1
        subst hl
        refine ⟨⟨gradeAnswer q p2,
          if gradeAnswer q p2 then scoreDelta (now2 - l.qShownAt.getD now2) else 0,
          now2 - l.qShownAt.getD now2⟩, ?_⟩
        unfold submitAnswer
        rw [if_neg hrange, hq, hp]
        simp only [hkey, if_true]
      · simp only [hkey, if_false, Bool.false_eq_true] at h1
        rw [Except.ok.injEq, Prod.mk.injEq] at h1
        obtain ⟨hl, -⟩ := h1
        subst hl
        refine ⟨⟨gradeAnswer q p2,
          if gradeAnswer q p2 then scoreDelta (now2 - l.qShownAt.getD now2) else 0,
          now2 - l.qShownAt.getD now2⟩, ?_⟩
        unfold submitAnswer
        dsimp only
        rw [if_neg hrange, hq]
        rw [lookup_map_update uid _ l.players (by rw [hp]; rfl)]
        simp only [lookup_append_key_isSome, if_true]

/-- Witness for C5: after the host's first submission turned `lobbyA`
into `lobbyASub`, a second submission (different payload, much later)
leaves `lobbyASub` unchanged. -/
theorem second_submission_leaves_state_unchanged_witness :
    ∃ r2, submitAnswer 9000 "h" (JSVal.obj []) lobbyASub = .ok (lobbyASub, r2) :=
  second_submission_leaves_state_unchanged lobbyA lobbyASub ⟨true, 150, 0⟩ 1000 9000 "h"
    (JSVal.obj [("answer", JSVal.bool true)]) (JSVal.obj []) rfl

/-- C8: the completion ranking is sorted by descending score, and any
two entries with equal scores keep their relative order from the
join-order scoreboard — the earlier-joined participant comes first,
deterministically (stability of the sort). -/
theorem ranking_sorted_desc_stable (l : Lobby) :
    (rankingOf l).Pairwise (fun a b => b.score ≤ a.score)
    ∧ ∀ a b : RankEntry, a.score = b.score → [a, b].Sublist (scoreboard l) →
        [a, b].Sublist (rankingOf l) := by
  have htrans : ∀ a b c : RankEntry, decide (b.score ≤ a.score) = true →
      decide (c.score ≤ b.score) = true → decide (c.score ≤ a.score) = true := by
    intro a b c hab hbc
    simp only [decide_eq_true_eq] at *
    exact Nat.le_trans hbc hab
  have htotal : ∀ a b : RankEntry,
      (decide (b.score ≤ a.score) || decide (a.score ≤ b.score)) = true := by
    intro a b
    rcases Nat.le_total b.score a.score with h | h <;> simp [h]
  constructor
  · exact (List.sorted_mergeSort htrans htotal (scoreboard l)).imp
      fun hab => of_decide_eq_true hab
  · intro a b hs hsub
    exact List.pair_sublist_mergeSort htrans htotal (by simp [hs]) hsub

/-- Witness for C8 at `lobbyTie`: players `a` and `b` are tied at 100
and `a` joined first, so `a` precedes `b` in the final ranking. -/
theorem ranking_sorted_desc_stable_witness :
    [(⟨"a", "A", 100⟩ : RankEntry), ⟨"b", "B", 100⟩].Sublist (rankingOf lobbyTie) :=
  (ranking_sorted_desc_stable lobbyTie).2 ⟨"a", "A", 100⟩ ⟨"b", "B", 100⟩ rfl (by decide)
